import Mathlib

/-!
# Verification of the `uibuilder.py` templating engine of syncthing-gtk

This file gives a shallow embedding of the glade-template preprocessor in
`src/syncthing_gtk/uibuilder.py`: the boolean condition evaluator
(`UIBuilder.condition_met`), the node-splice utility (`merge_with_parent`),
the object-copy / icon-path pass (`UIBuilder._objects_n_icons` together with
`search_for_id` and `UIBuilder._check_icon_path`) and the conditional-expansion
pass (`UIBuilder._find_conditions` / `UIBuilder._solve_if_element`).

Python strings are embedded as `List Char`, the DOM as the inductive `XNode`,
and the flag set `self.conditions` as a `List (List Char)` holding exactly the
strings passed to `enable_condition` (the source adds them unmodified).

Python iterates `for child in node.childNodes` over *live* lists that the loop
body mutates (`removeChild` / `insertBefore` on the very list being iterated).
The CPython list iterator keeps a numeric cursor, so removing the current item
shifts the successor under the cursor and the successor is silently skipped.
The embeddings below reproduce this cursor semantics exactly; it is the source
of several behaviours proved here.

Recursive tree walks are embedded with an explicit fuel argument (structural
recursion on the fuel) so that every definition evaluates by kernel reduction;
fuel exhaustion is a distinguished result, and termination statements are
phrased as "some fuel suffices" / "no fuel suffices".
-/

/-! ## Python string primitives -/

/-- The characters Python 2 `str.strip()` removes: space, `\t`, `\n`, `\r`,
`\x0b` (vertical tab), `\x0c` (form feed). -/
def isPySpace (c : Char) : Bool :=
  c = ' ' || c = '\t' || c = '\n' || c = '\r' || c = Char.ofNat 11 || c = Char.ofNat 12

/-- Leading-whitespace removal (the left half of Python `str.strip()`). -/
def lstripPy (l : List Char) : List Char := l.dropWhile isPySpace

/-- Trailing-whitespace removal (the right half of Python `str.strip()`). -/
def rstripPy (l : List Char) : List Char := (l.reverse.dropWhile isPySpace).reverse

/-- Python `str.strip()`: drop leading and trailing whitespace. -/
def pyStrip (l : List Char) : List Char := rstripPy (lstripPy l)

/-- Python `str.lower()` on the ASCII range (all inputs in the program are ASCII). -/
def lowerChar (c : Char) : Char :=
  if 'A' ≤ c ∧ c ≤ 'Z' then Char.ofNat (c.toNat + 32) else c

/-- Python `str.lower()` over a character list. -/
def pyLower (l : List Char) : List Char := l.map lowerChar

/-- Python `s.split(sep, 1)` for a separator known to occur in `s`:
the pair (text before the first `sep`, text after it). -/
def splitFirst (sep : Char) : List Char → List Char × List Char
  | [] => ([], [])
  | c :: cs =>
    if c = sep then ([], cs)
    else
      let p := splitFirst sep cs
      (c :: p.1, p.2)

/-- Python `path.startswith(prefixText)` on character lists. -/
def isPre : List Char → List Char → Bool
  | [], _ => true
  | _ :: _, [] => false
  | p :: ps, c :: cs => p = c && isPre ps cs

/-! ## The condition evaluator `UIBuilder.condition_met`

Source (uibuilder.py, lines 67-88):

    if "|" in cond:
        for sub in cond.split("|", 1):
            if self.condition_met(sub): return True
        return False
    if "&" in cond:
        for sub in cond.split("&", 1):
            if not self.condition_met(sub): return False
        return True
    if cond.strip().startswith("!"):
        return not self.condition_met(cond.strip()[1:])
    return cond.strip() in self.conditions

`condMetN` is the fueled version; `condMet` runs it with fuel
`cond.length + 1`, which is always sufficient (each recursive call strictly
shrinks the string, see `condMetN_irrel`). -/

/-- `true` when the list starts with `'!'` (Python `s.startswith("!")`). -/
def headIsBang : List Char → Bool
  | c :: _ => c = '!'
  | [] => false

def condMetN (flags : List (List Char)) : Nat → List Char → Bool
  | 0, _ => false
  | f + 1, cond =>
    if '|' ∈ cond then
      let p := splitFirst '|' cond
      condMetN flags f p.1 || condMetN flags f p.2
    else if '&' ∈ cond then
      let p := splitFirst '&' cond
      condMetN flags f p.1 && condMetN flags f p.2
    else if headIsBang (pyStrip cond) then
      !condMetN flags f (pyStrip cond).tail
    else
      flags.contains (pyStrip cond)

/-- `UIBuilder.condition_met(cond)` with flag set `flags`. -/
def condMet (flags : List (List Char)) (cond : List Char) : Bool :=
  condMetN flags (cond.length + 1) cond

/-! ### Size lemmas justifying the fuel bound -/

theorem splitFirst_fst_length {sep : Char} {l : List Char} (h : sep ∈ l) :
    (splitFirst sep l).1.length < l.length := by
  induction l with
  | nil => cases h
  | cons c cs ih =>
    by_cases hc : c = sep
    · simp [splitFirst, hc]
    · have hm : sep ∈ cs := by
        cases List.mem_cons.mp h with
        | inl h' => exact absurd h'.symm hc
        | inr h' => exact h'
      simpa [splitFirst, hc] using Nat.succ_lt_succ (ih hm)

theorem splitFirst_snd_length {sep : Char} {l : List Char} (h : sep ∈ l) :
    (splitFirst sep l).2.length < l.length := by
  induction l with
  | nil => cases h
  | cons c cs ih =>
    by_cases hc : c = sep
    · simp [splitFirst, hc]
    · have hm : sep ∈ cs := by
        cases List.mem_cons.mp h with
        | inl h' => exact absurd h'.symm hc
        | inr h' => exact h'
      have := ih hm
      simp only [splitFirst, hc, if_false, ite_false]
      simpa using Nat.lt_succ_of_lt this

theorem rstripPy_length_le (l : List Char) : (rstripPy l).length ≤ l.length := by
  have h := (List.dropWhile_sublist (l := l.reverse) (p := isPySpace)).length_le
  simpa [rstripPy] using h

theorem lstripPy_length_le (l : List Char) : (lstripPy l).length ≤ l.length :=
  (List.dropWhile_sublist (l := l) (p := isPySpace)).length_le

theorem pyStrip_length_le (l : List Char) : (pyStrip l).length ≤ l.length :=
  le_trans (rstripPy_length_le _) (lstripPy_length_le l)

theorem pyStrip_bang_tail_length {l : List Char} (h : headIsBang (pyStrip l) = true) :
    (pyStrip l).tail.length < l.length := by
  have h1 : (pyStrip l).length ≤ l.length := pyStrip_length_le l
  match hs : pyStrip l with
  | [] => rw [hs] at h; simp [headIsBang] at h
  | c :: rest =>
    rw [hs] at h1
    simpa using Nat.lt_of_lt_of_le (Nat.lt_succ_self rest.length) h1

/-- Fuel irrelevance: any fuel strictly above the string length computes the
same value, so `condMet` captures the (terminating) Python recursion. -/
theorem condMetN_irrel (flags : List (List Char)) :
    ∀ f g cond, cond.length < f → cond.length < g →
      condMetN flags f cond = condMetN flags g cond := by
  intro f
  induction f using Nat.strong_induction_on with
  | _ f ih =>
    intro g cond hf hg
    match f, g with
    | f' + 1, g' + 1 =>
      have hf' : cond.length ≤ f' := Nat.lt_succ_iff.mp hf
      have hg' : cond.length ≤ g' := Nat.lt_succ_iff.mp hg
      show condMetN flags (f' + 1) cond = condMetN flags (g' + 1) cond
      by_cases hb : '|' ∈ cond
      · have l1 := splitFirst_fst_length hb
        have l2 := splitFirst_snd_length hb
        simp only [condMetN, hb, if_true, ite_true]
        rw [ih f' (Nat.lt_succ_self f') g' _ (Nat.lt_of_lt_of_le l1 hf') (Nat.lt_of_lt_of_le l1 hg'),
            ih f' (Nat.lt_succ_self f') g' _ (Nat.lt_of_lt_of_le l2 hf') (Nat.lt_of_lt_of_le l2 hg')]
      · by_cases ha : '&' ∈ cond
        · have l1 := splitFirst_fst_length ha
          have l2 := splitFirst_snd_length ha
          simp only [condMetN, hb, ha, if_false, if_true, ite_false, ite_true]
          rw [ih f' (Nat.lt_succ_self f') g' _ (Nat.lt_of_lt_of_le l1 hf') (Nat.lt_of_lt_of_le l1 hg'),
              ih f' (Nat.lt_succ_self f') g' _ (Nat.lt_of_lt_of_le l2 hf') (Nat.lt_of_lt_of_le l2 hg')]
        · by_cases hbang : headIsBang (pyStrip cond) = true
          · have l3 := pyStrip_bang_tail_length hbang
            simp only [condMetN, hb, ha, hbang, if_false, if_true, ite_false, ite_true]
            rw [ih f' (Nat.lt_succ_self f') g' _ (Nat.lt_of_lt_of_le l3 hf') (Nat.lt_of_lt_of_le l3 hg')]
          · simp only [condMetN, hb, ha, hbang, if_false, ite_false, Bool.false_eq_true]

theorem condMetN_eq_condMet (flags : List (List Char)) {f : Nat} {cond : List Char}
    (h : cond.length < f) : condMetN flags f cond = condMet flags cond :=
  condMetN_irrel flags f (cond.length + 1) cond h (Nat.lt_succ_self _)

/-! ### Branch lemmas for `condMet` -/

theorem condMet_bar {flags : List (List Char)} {cond : List Char} (h : '|' ∈ cond) :
    condMet flags cond =
      (condMet flags (splitFirst '|' cond).1 || condMet flags (splitFirst '|' cond).2) := by
  have l1 := splitFirst_fst_length h
  have l2 := splitFirst_snd_length h
  show condMetN flags (cond.length + 1) cond = _
  simp only [condMetN, h, if_true, ite_true]
  rw [condMetN_eq_condMet flags l1, condMetN_eq_condMet flags l2]

theorem condMet_amp {flags : List (List Char)} {cond : List Char}
    (hb : '|' ∉ cond) (h : '&' ∈ cond) :
    condMet flags cond =
      (condMet flags (splitFirst '&' cond).1 && condMet flags (splitFirst '&' cond).2) := by
  have l1 := splitFirst_fst_length h
  have l2 := splitFirst_snd_length h
  show condMetN flags (cond.length + 1) cond = _
  simp only [condMetN, hb, h, if_false, if_true, ite_false, ite_true]
  rw [condMetN_eq_condMet flags l1, condMetN_eq_condMet flags l2]

theorem condMet_bang {flags : List (List Char)} {cond : List Char}
    (hb : '|' ∉ cond) (ha : '&' ∉ cond) (hs : headIsBang (pyStrip cond) = true) :
    condMet flags cond = !condMet flags (pyStrip cond).tail := by
  have l3 := pyStrip_bang_tail_length hs
  show condMetN flags (cond.length + 1) cond = _
  simp only [condMetN, hb, ha, hs, if_false, if_true, ite_false, ite_true]
  rw [condMetN_eq_condMet flags l3]

theorem condMet_mem {flags : List (List Char)} {cond : List Char}
    (hb : '|' ∉ cond) (ha : '&' ∉ cond) (hs : headIsBang (pyStrip cond) = false) :
    condMet flags cond = flags.contains (pyStrip cond) := by
  show condMetN flags (cond.length + 1) cond = _
  simp only [condMetN, hb, ha, hs, if_false, ite_false, Bool.false_eq_true]

/-! ### Structural facts about `pyStrip` -/

theorem dropWhile_idem (p : Char → Bool) (l : List Char) :
    (l.dropWhile p).dropWhile p = l.dropWhile p := by
  induction l with
  | nil => rfl
  | cons c cs ih =>
    by_cases h : p c = true
    · rw [List.dropWhile_cons_of_pos h, ih]
    · rw [List.dropWhile_cons_of_neg (by simpa using h),
          List.dropWhile_cons_of_neg (by simpa using h)]

theorem rstripPy_cons (c : Char) (t : List Char) :
    rstripPy (c :: t) =
      if rstripPy t = [] then (if isPySpace c then [] else [c]) else c :: rstripPy t := by
  show ((c :: t).reverse.dropWhile isPySpace).reverse = _
  rw [List.reverse_cons, List.dropWhile_append]
  by_cases h : (t.reverse.dropWhile isPySpace).isEmpty = true
  · have h2 : rstripPy t = [] := by
      rw [List.isEmpty_iff] at h
      simp [rstripPy, h]
    rw [if_pos h, if_pos h2]
    by_cases hc : isPySpace c = true
    · simp [List.dropWhile, hc]
    · simp only [Bool.not_eq_true] at hc
      simp [List.dropWhile, hc]
  · have h2 : ¬ rstripPy t = [] := by
      rw [List.isEmpty_iff] at h
      simp only [rstripPy]
      intro hcon
      exact h (by simpa using congrArg List.reverse hcon)
    rw [if_neg (by simpa using h), if_neg h2]
    simp [rstripPy]

theorem rstripPy_idem (l : List Char) : rstripPy (rstripPy l) = rstripPy l := by
  simp [rstripPy, dropWhile_idem]

theorem rstripPy_eq_nil_iff {l : List Char} :
    rstripPy l = [] ↔ ∀ x ∈ l, isPySpace x = true := by
  constructor
  · intro h x hx
    have h2 : l.reverse.dropWhile isPySpace = [] := by
      have := congrArg List.reverse h
      rw [rstripPy] at this
      simpa using this
    exact List.dropWhile_eq_nil_iff.mp h2 x (List.mem_reverse.mpr hx)
  · intro h
    have h2 : l.reverse.dropWhile isPySpace = [] :=
      List.dropWhile_eq_nil_iff.mpr fun x hx => h x (List.mem_reverse.mp hx)
    rw [rstripPy, h2]
    rfl

theorem lstripPy_eq_nil_iff {l : List Char} :
    lstripPy l = [] ↔ ∀ x ∈ l, isPySpace x = true := List.dropWhile_eq_nil_iff

theorem lstrip_rstrip_comm (l : List Char) :
    lstripPy (rstripPy l) = rstripPy (lstripPy l) := by
  induction l with
  | nil => rfl
  | cons c t ih =>
    by_cases hc : isPySpace c = true
    · have hl : lstripPy (c :: t) = lstripPy t := List.dropWhile_cons_of_pos hc
      by_cases hnil : rstripPy t = []
      · have ht : lstripPy t = [] :=
          lstripPy_eq_nil_iff.mpr (rstripPy_eq_nil_iff.mp hnil)
        rw [hl, ht, rstripPy_cons, if_pos hnil, if_pos hc]
        rfl
      · rw [hl, rstripPy_cons, if_neg hnil, ← ih]
        exact List.dropWhile_cons_of_pos hc
    · have hcb : ¬ isPySpace c = true := hc
      have hl : lstripPy (c :: t) = c :: t :=
        List.dropWhile_cons_of_neg (by simpa using hcb)
      rw [hl, rstripPy_cons]
      by_cases hnil : rstripPy t = []
      · rw [if_pos hnil, if_neg hcb]
        exact List.dropWhile_cons_of_neg (by simpa using hcb)
      · rw [if_neg hnil]
        exact List.dropWhile_cons_of_neg (by simpa using hcb)

/-- Stripping after trailing-strip is the same as stripping the original. -/
theorem pyStrip_rstripPy (l : List Char) : pyStrip (rstripPy l) = pyStrip l := by
  show rstripPy (lstripPy (rstripPy l)) = rstripPy (lstripPy l)
  rw [lstrip_rstrip_comm]
  exact rstripPy_idem _

/-- `("!" + a).strip() = "!" + rstrip(a)`: prefixing `'!'` blocks left
stripping, so only the right end of `a` is trimmed. -/
theorem pyStrip_bang_cons (a : List Char) : pyStrip ('!' :: a) = '!' :: rstripPy a := by
  have hl : lstripPy ('!' :: a) = '!' :: a :=
    List.dropWhile_cons_of_neg (by decide)
  show rstripPy (lstripPy ('!' :: a)) = _
  rw [hl, rstripPy_cons]
  by_cases hnil : rstripPy a = []
  · rw [if_pos hnil, hnil]
    decide
  · rw [if_neg hnil]

theorem mem_rstripPy_subset {x : Char} {l : List Char} (h : x ∈ rstripPy l) : x ∈ l := by
  have hs : List.Sublist (rstripPy l) l := by
    have h2 := (List.dropWhile_sublist (l := l.reverse) (p := isPySpace)).reverse
    simpa [rstripPy] using h2
  exact hs.subset h

/-! ### `condMet` ignores trailing whitespace on operator-free expressions -/

theorem condMet_rstripPy (F : List (List Char)) (a : List Char)
    (h1 : '|' ∉ a) (h2 : '&' ∉ a) :
    condMet F (rstripPy a) = condMet F a := by
  have h1' : '|' ∉ rstripPy a := fun h => h1 (mem_rstripPy_subset h)
  have h2' : '&' ∉ rstripPy a := fun h => h2 (mem_rstripPy_subset h)
  by_cases hbang : headIsBang (pyStrip a) = true
  · have hbang' : headIsBang (pyStrip (rstripPy a)) = true := by
      rw [pyStrip_rstripPy]; exact hbang
    rw [condMet_bang h1' h2' hbang', condMet_bang h1 h2 hbang, pyStrip_rstripPy]
  · have hbang' : headIsBang (pyStrip (rstripPy a)) = false := by
      rw [pyStrip_rstripPy]; simpa using hbang
    rw [condMet_mem h1' h2' hbang', condMet_mem h1 h2 (by simpa using hbang), pyStrip_rstripPy]

/-! ### Splitting an appended separator -/

theorem splitFirst_append_left {sep : Char} {a : List Char} (h : sep ∈ a) (r : List Char) :
    splitFirst sep (a ++ r) = ((splitFirst sep a).1, (splitFirst sep a).2 ++ r) := by
  induction a with
  | nil => cases h
  | cons c cs ih =>
    by_cases hc : c = sep
    · simp [splitFirst, hc]
    · have hm : sep ∈ cs := by
        cases List.mem_cons.mp h with
        | inl h' => exact absurd h'.symm hc
        | inr h' => exact h'
      simp [splitFirst, hc, ih hm]

theorem splitFirst_append_sep {sep : Char} {a : List Char} (h : sep ∉ a) (b : List Char) :
    splitFirst sep (a ++ sep :: b) = (a, b) := by
  induction a with
  | nil => simp [splitFirst]
  | cons c cs ih =>
    have hc : ¬ c = sep := fun hcc => h (hcc ▸ List.mem_cons_self c cs)
    have hm : sep ∉ cs := fun hmm => h (List.mem_cons_of_mem _ hmm)
    simp [splitFirst, hc, ih hm]

/-! ### The membership tests performed by `condition_met`

`condQN` mirrors the control flow of `condition_met` exactly, but collects the
list of stripped strings that the final line `cond.strip() in self.conditions`
actually tests against the flag set, in evaluation order.  A sub-expression
that the Python short-circuit (`return True` inside the `|` loop, `return
False` inside the `&` loop) never reaches contributes nothing to this list, so
"`b` is never evaluated" is expressed as "the query list does not change". -/

def condQN (flags : List (List Char)) : Nat → List Char → List (List Char)
  | 0, _ => []
  | f + 1, cond =>
    if '|' ∈ cond then
      let p := splitFirst '|' cond
      if condMetN flags f p.1 then condQN flags f p.1
      else condQN flags f p.1 ++ condQN flags f p.2
    else if '&' ∈ cond then
      let p := splitFirst '&' cond
      if condMetN flags f p.1 then condQN flags f p.1 ++ condQN flags f p.2
      else condQN flags f p.1
    else if headIsBang (pyStrip cond) then
      condQN flags f (pyStrip cond).tail
    else
      [pyStrip cond]

/-- The flag-set membership tests performed by `condition_met(cond)`. -/
def condQueries (flags : List (List Char)) (cond : List Char) : List (List Char) :=
  condQN flags (cond.length + 1) cond

theorem condQN_irrel (flags : List (List Char)) :
    ∀ f g cond, cond.length < f → cond.length < g →
      condQN flags f cond = condQN flags g cond := by
  intro f
  induction f using Nat.strong_induction_on with
  | _ f ih =>
    intro g cond hf hg
    match f, g with
    | f' + 1, g' + 1 =>
      have hf' : cond.length ≤ f' := Nat.lt_succ_iff.mp hf
      have hg' : cond.length ≤ g' := Nat.lt_succ_iff.mp hg
      show condQN flags (f' + 1) cond = condQN flags (g' + 1) cond
      by_cases hb : '|' ∈ cond
      · have l1 := splitFirst_fst_length hb
        have l2 := splitFirst_snd_length hb
        have e1 : condMetN flags f' (splitFirst '|' cond).1
            = condMetN flags g' (splitFirst '|' cond).1 :=
          condMetN_irrel flags f' g' _ (Nat.lt_of_lt_of_le l1 hf') (Nat.lt_of_lt_of_le l1 hg')
        simp only [condQN, hb, if_true, ite_true]
        rw [e1,
            ih f' (Nat.lt_succ_self f') g' _ (Nat.lt_of_lt_of_le l1 hf') (Nat.lt_of_lt_of_le l1 hg'),
            ih f' (Nat.lt_succ_self f') g' _ (Nat.lt_of_lt_of_le l2 hf') (Nat.lt_of_lt_of_le l2 hg')]
      · by_cases ha : '&' ∈ cond
        · have l1 := splitFirst_fst_length ha
          have l2 := splitFirst_snd_length ha
          have e1 : condMetN flags f' (splitFirst '&' cond).1
              = condMetN flags g' (splitFirst '&' cond).1 :=
            condMetN_irrel flags f' g' _ (Nat.lt_of_lt_of_le l1 hf') (Nat.lt_of_lt_of_le l1 hg')
          simp only [condQN, hb, ha, if_false, if_true, ite_false, ite_true]
          rw [e1,
              ih f' (Nat.lt_succ_self f') g' _ (Nat.lt_of_lt_of_le l1 hf') (Nat.lt_of_lt_of_le l1 hg'),
              ih f' (Nat.lt_succ_self f') g' _ (Nat.lt_of_lt_of_le l2 hf') (Nat.lt_of_lt_of_le l2 hg')]
        · by_cases hbang : headIsBang (pyStrip cond) = true
          · have l3 := pyStrip_bang_tail_length hbang
            simp only [condQN, hb, ha, hbang, if_false, if_true, ite_false, ite_true]
            exact ih f' (Nat.lt_succ_self f') g' _ (Nat.lt_of_lt_of_le l3 hf') (Nat.lt_of_lt_of_le l3 hg')
          · simp only [condQN, hb, ha, hbang, if_false, ite_false, Bool.false_eq_true]

theorem condQN_eq_condQueries (flags : List (List Char)) {f : Nat} {cond : List Char}
    (h : cond.length < f) : condQN flags f cond = condQueries flags cond :=
  condQN_irrel flags f (cond.length + 1) cond h (Nat.lt_succ_self _)

theorem condQueries_bar_true {flags : List (List Char)} {cond : List Char}
    (h : '|' ∈ cond) (ht : condMet flags (splitFirst '|' cond).1 = true) :
    condQueries flags cond = condQueries flags (splitFirst '|' cond).1 := by
  have l1 := splitFirst_fst_length h
  show condQN flags (cond.length + 1) cond = _
  simp only [condQN, h, if_true, ite_true]
  rw [condMetN_eq_condMet flags l1, ht]
  simp only [ite_true, if_true]
  exact condQN_eq_condQueries flags l1

theorem condQueries_bar_false {flags : List (List Char)} {cond : List Char}
    (h : '|' ∈ cond) (ht : condMet flags (splitFirst '|' cond).1 = false) :
    condQueries flags cond =
      condQueries flags (splitFirst '|' cond).1 ++ condQueries flags (splitFirst '|' cond).2 := by
  have l1 := splitFirst_fst_length h
  have l2 := splitFirst_snd_length h
  show condQN flags (cond.length + 1) cond = _
  simp only [condQN, h, if_true, ite_true]
  rw [condMetN_eq_condMet flags l1, ht]
  simp only [Bool.false_eq_true, ite_false, if_false]
  rw [condQN_eq_condQueries flags l1, condQN_eq_condQueries flags l2]

/-! ### Disjunction splitting -/

theorem condMet_or_aux (F : List (List Char)) :
    ∀ (n : Nat) (a : List Char), a.length ≤ n → ∀ b,
      condMet F (a ++ '|' :: b) = (condMet F a || condMet F b) := by
  intro n
  induction n using Nat.strong_induction_on with
  | _ n ih =>
    intro a ha b
    have hmem : '|' ∈ a ++ '|' :: b := List.mem_append_right _ (List.mem_cons_self _ _)
    by_cases hA : '|' ∈ a
    · have hsplit := splitFirst_append_left hA ('|' :: b)
      rw [condMet_bar hmem, hsplit]
      have hlen : (splitFirst '|' a).2.length < n :=
        Nat.lt_of_lt_of_le (splitFirst_snd_length hA) ha
      have hrec := ih _ hlen (splitFirst '|' a).2 (le_refl _) b
      show (condMet F (splitFirst '|' a).1 || condMet F ((splitFirst '|' a).2 ++ '|' :: b)) = _
      rw [hrec, condMet_bar hA, Bool.or_assoc]
    · have hsplit := splitFirst_append_sep hA b
      rw [condMet_bar hmem, hsplit]

theorem condQueries_or_aux (F : List (List Char)) :
    ∀ (n : Nat) (a : List Char), a.length ≤ n → ∀ b, condMet F a = true →
      condQueries F (a ++ '|' :: b) = condQueries F a := by
  intro n
  induction n using Nat.strong_induction_on with
  | _ n ih =>
    intro a ha b htrue
    have hmem : '|' ∈ a ++ '|' :: b := List.mem_append_right _ (List.mem_cons_self _ _)
    by_cases hA : '|' ∈ a
    · have hsplit := splitFirst_append_left hA ('|' :: b)
      by_cases h1 : condMet F (splitFirst '|' a).1 = true
      · rw [condQueries_bar_true hmem (by rw [hsplit]; exact h1), hsplit,
            condQueries_bar_true hA h1]
      · have h1f : condMet F (splitFirst '|' a).1 = false := by
          simpa using h1
        have h2t : condMet F (splitFirst '|' a).2 = true := by
          rw [condMet_bar hA, h1f] at htrue
          simpa using htrue
        have hlen : (splitFirst '|' a).2.length < n :=
          Nat.lt_of_lt_of_le (splitFirst_snd_length hA) ha
        have hrec := ih _ hlen (splitFirst '|' a).2 (le_refl _) b h2t
        rw [condQueries_bar_false hmem (by rw [hsplit]; exact h1f), hsplit,
            condQueries_bar_false hA h1f]
        show condQueries F (splitFirst '|' a).1 ++ condQueries F ((splitFirst '|' a).2 ++ '|' :: b) = _
        rw [hrec]
    · have hsplit := splitFirst_append_sep hA b
      rw [condQueries_bar_true hmem (by rw [hsplit]; exact htrue), hsplit]

-- sanity checks of the evaluator on concrete inputs
example : condMet [['a']] ['a'] = true := by decide
example : condMet [['a']] ['b'] = false := by decide
example : condMet [['a']] ['!', 'b'] = true := by decide
example : condMet [['a']] ['a', '&', 'b'] = false := by decide
example : condMet [['a'], ['b']] ['a', '&', 'b'] = true := by decide
example : condMet [['b']] ['a', '|', 'b'] = true := by decide
example : condMet [['a']] [' ', 'a', ' '] = true := by decide

/-! ## Claims C1, C2, C3: the condition evaluator -/

/-- Claim C1.  The claim (and the docstring of `condition_met`: "Empty
condition is True.") says that an empty or all-whitespace expression
evaluates to `true` for every flag set.  The code instead falls through to
the final membership test `cond.strip() in self.conditions`, which for an
empty or all-whitespace `cond` asks whether the *empty string* is an enabled
flag: for the empty flag set, and for the flag set `{"a"}`, both the empty
expression and the two-space expression evaluate to `false`. -/
theorem uib_c1_empty_condition_eval :
    condMet [] [] = false ∧ condMet [['a']] [] = false ∧
      condMet [['a']] [' ', ' '] = false := by
  decide

/-- Claim C2, counterexample.  With flag set `{"y"}` and `a = "x|y"`,
the claim demands `condition_met("!x|y") = not condition_met("x|y")`.
The code splits `"!x|y"` at the first `'|'` *before* it ever looks at the
leading `'!'`, so the left side is `condition_met("!x") or condition_met("y")
= true`, while `not condition_met("x|y") = not true = false`. -/
theorem uib_c2_counterexample :
    condMet [['y']] ('!' :: ['x', '|', 'y']) ≠ (!condMet [['y']] ['x', '|', 'y']) := by
  decide

/-- Claim C2, amended.  `condition_met("!" + a) = not condition_met(a)` holds
for every flag set and every expression `a` that contains neither `'|'` nor
`'&'` (the operator scans run before the `'!'` test, so an operator inside
`a` captures the `'!'` into its left operand and breaks the law). -/
theorem uib_c2_not_flat (F : List (List Char)) (a : List Char)
    (h1 : '|' ∉ a) (h2 : '&' ∉ a) :
    condMet F ('!' :: a) = !condMet F a := by
  have hb : '|' ∉ '!' :: a := by
    intro h
    rcases List.mem_cons.mp h with h | h
    · exact absurd h (by decide)
    · exact h1 h
  have ha : '&' ∉ '!' :: a := by
    intro h
    rcases List.mem_cons.mp h with h | h
    · exact absurd h (by decide)
    · exact h2 h
  have hsp := pyStrip_bang_cons a
  have hbang : headIsBang (pyStrip ('!' :: a)) = true := by rw [hsp]; rfl
  rw [condMet_bang hb ha hbang, hsp]
  simp only [List.tail_cons]
  rw [condMet_rstripPy F a h1 h2]

/-- Witness for the amended Claim C2 at `F = {"x"}`, `a = " x"`. -/
theorem uib_c2_not_flat_witness :
    condMet [['x']] ('!' :: [' ', 'x']) = !condMet [['x']] [' ', 'x'] :=
  uib_c2_not_flat [['x']] [' ', 'x'] (by decide) (by decide)

/-- Claim C3.  For all expressions `a`, `b` and every flag set,
`condition_met(a + "|" + b) = condition_met(a) or condition_met(b)`, and
evaluation short-circuits: when `a` evaluates to `true`, the membership tests
performed on `a + "|" + b` are exactly those performed on `a` alone, so no
part of `b` is ever evaluated. -/
theorem uib_c3_or_split_short (F : List (List Char)) (a b : List Char) :
    condMet F (a ++ '|' :: b) = (condMet F a || condMet F b) ∧
      (condMet F a = true → condQueries F (a ++ '|' :: b) = condQueries F a) :=
  ⟨condMet_or_aux F a.length a (le_refl _) b,
   fun h => condQueries_or_aux F a.length a (le_refl _) b h⟩

/-- Witness for Claim C3 at `F = {"x"}`, `a = "x"`, `b = "boom"` (an unknown
flag name on the right is tolerated and never queried). -/
theorem uib_c3_witness :
    condMet [['x']] (['x'] ++ '|' :: ['b', 'o', 'o', 'm'])
        = (condMet [['x']] ['x'] || condMet [['x']] ['b', 'o', 'o', 'm']) ∧
      condQueries [['x']] (['x'] ++ '|' :: ['b', 'o', 'o', 'm'])
        = condQueries [['x']] ['x'] :=
  ⟨(uib_c3_or_split_short [['x']] ['x'] ['b', 'o', 'o', 'm']).1,
   (uib_c3_or_split_short [['x']] ['x'] ['b', 'o', 'o', 'm']).2 (by decide)⟩

/-! ## The DOM model

`xml.dom.minidom` trees: an element has a tag name, an ordered attribute
mapping and an ordered child list; a text node has a string payload.  Parent
pointers are represented implicitly: an operation that needs the surrounding
document carries a zipper of `Crumb`s (see `plug` below). -/

inductive XNode : Type where
  | elem (tag : String) (attrs : List (String × String)) (children : List XNode)
  | text (data : String)

/-- `node.getAttribute(name)`: minidom returns the empty string when the
attribute is absent. -/
def getAttr (attrs : List (String × String)) (name : String) : String :=
  match attrs.find? (fun p => p.1 = name) with
  | some p => p.2
  | none => ""

/-- `node.removeAttribute(name)`. -/
def removeAttr (attrs : List (String × String)) (name : String) : List (String × String) :=
  attrs.filter (fun p => ¬ p.1 = name)

def tagOf : XNode → String
  | XNode.elem t _ _ => t
  | XNode.text _ => ""

def attrsOf : XNode → List (String × String)
  | XNode.elem _ a _ => a
  | XNode.text _ => []

def childrenOf : XNode → List XNode
  | XNode.elem _ _ cs => cs
  | XNode.text _ => []

/-- Is this an element node? (`child.nodeType == child.ELEMENT_NODE`). -/
def isElemNode : XNode → Bool
  | XNode.elem _ _ _ => true
  | XNode.text _ => false

/-- Case-insensitive tag test, as in `child.tagName.lower() == tagname`
(`getElementsByTagNameCI` also lowers its argument). -/
def isTagCI (n : XNode) (tagname : String) : Bool :=
  match n with
  | XNode.elem t _ _ => pyLower t.toList = pyLower tagname.toList
  | XNode.text _ => false

/-! ## The node splice utility `merge_with_parent`

Source (uibuilder.py, lines 205-212):

    def merge_with_parent(element, insert_before):
        for child in element.childNodes:
            if child.nodeType == child.ELEMENT_NODE:
                element.removeChild(child)
                insert_before.parentNode.appendChild(child)
                insert_before.parentNode.insertBefore(child, insert_before)
        element.parentNode.removeChild(element)

The `for` loop iterates the live `element.childNodes` list while
`removeChild` shrinks it.  CPython's list iterator advances a numeric cursor,
so after the current element child is removed, the node that followed it
slides under the cursor and is never yielded.  Hence an element child that
immediately follows a just-moved element child is *skipped*: it stays inside
`element` and is discarded along with it by the final `removeChild`.

`mergeSelect` computes which children of the wrapper are moved (in order);
`mergeLeftover` computes which stay behind and are destroyed.  Each moved
node is inserted into `insert_before.parentNode` directly before
`insert_before` (the `appendChild` is immediately undone by `insertBefore`,
which first detaches the node), so the moved nodes end up, in order, just
before the insertion point: `mergeWithParent` states the resulting child
list of the insertion point's parent when that parent's children are
`before ++ insert_before :: after`. -/

def mergeSelect : List XNode → List XNode
  | [] => []
  | XNode.text _ :: rest => mergeSelect rest
  | XNode.elem t a cs :: rest =>
    XNode.elem t a cs ::
      (match rest with
       | [] => []
       | _ :: rest2 => mergeSelect rest2)

def mergeLeftover : List XNode → List XNode
  | [] => []
  | XNode.text s :: rest => XNode.text s :: mergeLeftover rest
  | XNode.elem _ _ _ :: rest =>
    match rest with
    | [] => []
    | skipped :: rest2 => skipped :: mergeLeftover rest2

/-- Net effect of `merge_with_parent(element, insert_before)` on the child
list of `insert_before.parentNode`, for a wrapper `element` with children
`wc` that is not itself in that list. -/
def mergeWithParent (wc before after : List XNode) (insPoint : XNode) : List XNode :=
  before ++ mergeSelect wc ++ insPoint :: after

/-- Modelled from the spec: §4.3 says splice moves *every* Element child of
the wrapper, in order (Text children are discarded).  This is the moved-node
list the specification demands. -/
def specSpliceMoved (wc : List XNode) : List XNode :=
  wc.filter isElemNode

/-- Claim C4.  The claim says `splice` moves every Element child of the
wrapper, *including element children adjacent to each other with no
intervening text node*, preserving order.  On a wrapper with children
`<x/><y/>` the code moves only `<x/>`: removing `<x/>` mid-iteration slides
`<y/>` under the loop cursor, so `<y/>` is skipped, stays in the wrapper and
is destroyed when the wrapper is removed.  The spec-mandated moved list
(`specSpliceMoved`) would be both nodes.  With an intervening text node both
elements are moved (third conjunct), which is why the bug stays hidden in
pretty-printed glade files. -/
theorem uib_c4_adjacent_children_eval :
    mergeSelect [XNode.elem "x" [] [], XNode.elem "y" [] []]
        = [XNode.elem "x" [] []] ∧
      mergeLeftover [XNode.elem "x" [] [], XNode.elem "y" [] []]
        = [XNode.elem "y" [] []] ∧
      mergeSelect [XNode.elem "x" [] [], XNode.text "\n", XNode.elem "y" [] []]
        = [XNode.elem "x" [] [], XNode.elem "y" [] []] ∧
      specSpliceMoved [XNode.elem "x" [] [], XNode.elem "y" [] []]
        = [XNode.elem "x" [] [], XNode.elem "y" [] []] ∧
      mergeWithParent [XNode.elem "x" [] [], XNode.elem "y" [] []] [] []
          (XNode.elem "p" [] [])
        = [XNode.elem "x" [] [], XNode.elem "p" [] []] :=
  ⟨rfl, rfl, rfl, rfl, rfl⟩

/-! ## `search_for_id` (uibuilder.py, lines 214-226)

Pre-order depth-first search over element nodes for a matching `id`
attribute.  The Python code always terminates (the tree is finite and is not
mutated during a search), but the Lean embedding walks a nested inductive, so
it carries fuel to stay kernel-computable: `none` means the fuel ran out,
`some none` means "no match" (Python `None`), `some (some obj)` a match.
One fuel unit is consumed per visited list node, so fuel exceeding the node
count of the tree is always sufficient. -/

def searchN (id : String) : Nat → List XNode → Option (Option XNode)
  | 0, _ => none
  | _ + 1, [] => some none
  | f + 1, XNode.text _ :: rest => searchN id f rest
  | f + 1, XNode.elem t a cs :: rest =>
    if getAttr a "id" = id then some (some (XNode.elem t a cs))
    else
      match searchN id f cs with
      | none => none
      | some (some r) => some (some r)
      | some none => searchN id f rest

/-! ## Document zipper

`_objects_n_icons` calls `search_for_id(self.xml, id)` on the *whole, live*
document while it is midway through rewriting it.  To reproduce that, the
recursive walk carries a zipper: one `Crumb` per ancestor element, recording
its tag, attributes, the already-processed left siblings of the focus and
the still-unprocessed right siblings.  `plug` rebuilds the current document
element from the zipper and the focus node, exactly as minidom would show it
to `search_for_id` at that moment. -/

structure Crumb : Type where
  tag : String
  attrs : List (String × String)
  left : List XNode
  right : List XNode

def plug : List Crumb → XNode → XNode
  | [], n => n
  | c :: z, n => plug z (XNode.elem c.tag c.attrs (c.left ++ n :: c.right))

/-! ## Icon-path rewriting (`replace_icon_path` / `_check_icon_path`) -/

/-- The inner `replace(path)` of `_check_icon_path`: first matching prefix in
the remap table wins; no match leaves the path unchanged. -/
def remapPath (icons : List (String × String)) (path : String) : String :=
  match icons with
  | [] => path
  | (pre, rep) :: rest =>
    if isPre pre.toList path.toList then
      rep ++ String.mk (path.toList.drop pre.toList.length)
    else remapPath rest path

/-- `_check_icon_path`: every direct Text child of the element has its data
remapped; element children are untouched. -/
def fixTexts (icons : List (String × String)) : List XNode → List XNode
  | [] => []
  | XNode.text s :: rest => XNode.text (remapPath icons s) :: fixTexts icons rest
  | n :: rest => n :: fixTexts icons rest

/-- The icon check performed on a child after recursing into it: a
`property` element (case-insensitive tag) whose `name` attribute is exactly
`pixbuf` or `icon` has its direct text children remapped. -/
def iconCheck (icons : List (String × String)) (n : XNode) : XNode :=
  match n with
  | XNode.elem t a cs =>
    if pyLower t.toList = "property".toList
        && (getAttr a "name" = "pixbuf" || getAttr a "name" = "icon") then
      XNode.elem t a (fixTexts icons cs)
    else XNode.elem t a cs
  | n => n

/-! ## The object-copy / icon pass `_objects_n_icons` (lines 114-140)

    for child in node.childNodes:
        if child.nodeType == child.ELEMENT_NODE:
            if child.tagName.lower() == "copyobject":
                id = child.getAttribute("id")
                if id == "":
                    log.warn("COPYOBJECT tag without id")
                else:
                    obj = search_for_id(self.xml, id)
                    cpy = obj.cloneNode(True)
                    child.parentNode.appendChild(cpy)
                    child.parentNode.insertBefore(cpy, child)
                    child.parentNode.removeChild(child)
                    self._objects_n_icons(cpy)
            else:
                self._objects_n_icons(child)
                if child.tagName.lower() == "property":
                    if child.getAttribute("name") == "pixbuf":
                        self._check_icon_path(child)
                    elif child.getAttribute("name") == "icon":
                        self._check_icon_path(child)

In the `copyobject` branch the list length is restored before the cursor
advances (insert before + remove), so no sibling is skipped here.  The found
object is deep-cloned, put in the copyobject's place, and the pass recurses
into the clone *while it already sits in the live document*.  If
`search_for_id` returns `None`, the attribute access `obj.cloneNode` raises
`AttributeError` and aborts the build: that is `CopyErr.cloneOfNone`.

`opChildren fuel icons z tag ats done todo` processes the children of the
focus element `(tag, ats)` whose finished children are `done` and whose
pending children are `todo`, under ancestor zipper `z`.  One fuel unit per
call; `CopyErr.noFuel` is the out-of-fuel marker. -/

inductive CopyErr : Type where
  | noFuel
  | cloneOfNone

def opChildren (icons : List (String × String)) :
    Nat → List Crumb → String → List (String × String) →
      List XNode → List XNode → Except CopyErr (List XNode)
  | 0, _, _, _, _, _ => Except.error CopyErr.noFuel
  | _ + 1, _, _, _, done, [] => Except.ok done
  | f + 1, z, tg, ats, done, child :: rest =>
    match child with
    | XNode.text _ => opChildren icons f z tg ats (done ++ [child]) rest
    | XNode.elem t a cs =>
      if pyLower t.toList = "copyobject".toList then
        if getAttr a "id" = "" then
          opChildren icons f z tg ats (done ++ [child]) rest
        else
          match searchN (getAttr a "id") f
              [plug z (XNode.elem tg ats (done ++ child :: rest))] with
          | none => Except.error CopyErr.noFuel
          | some none => Except.error CopyErr.cloneOfNone
          | some (some obj) =>
            match opChildren icons f (Crumb.mk tg ats done rest :: z)
                (tagOf obj) (attrsOf obj) [] (childrenOf obj) with
            | Except.error e => Except.error e
            | Except.ok cs2 =>
              opChildren icons f z tg ats
                (done ++ [XNode.elem (tagOf obj) (attrsOf obj) cs2]) rest
      else
        match opChildren icons f (Crumb.mk tg ats done rest :: z) t a [] cs with
        | Except.error e => Except.error e
        | Except.ok cs2 =>
          opChildren icons f z tg ats
            (done ++ [iconCheck icons (XNode.elem t a cs2)]) rest

/-! ## The conditional-expansion pass (lines 142-175)

`_solve_if_element` evaluates `element.getAttribute("condition").lower()
.strip()`; if met, it removes all direct (case-insensitive) `else` element
children and splices the remaining children over the `if` element; if not
met, it splices each `else` child's children over the `if` element and then
removes the `if` element.  `solveIfMoved` is the list of nodes that replace
the `if` element in its parent (the splice selection has the skip behaviour
of `mergeSelect`). -/

def solveIfMoved (flags : List (List Char)) (a : List (String × String))
    (cs : List XNode) : List XNode :=
  let cond := pyStrip (pyLower (getAttr a "condition").toList)
  if condMet flags cond then
    mergeSelect (cs.filter (fun n => !isTagCI n "else"))
  else
    ((cs.filter (fun n => isTagCI n "else")).map
      (fun n => mergeSelect (childrenOf n))).flatten

/-! `_find_conditions(node)` iterates the live child list with the same
CPython cursor semantics as `merge_with_parent`:

    for child in node.childNodes:
        if child.nodeType == child.ELEMENT_NODE:
            self._find_conditions(child)
            if child.tagName.lower() == "if":
                self._solve_if_element(child)
            elif child.getAttribute("if") != "":
                condition = child.getAttribute("if")
                if not self.condition_met(condition):
                    node.removeChild(child)
                else:
                    child.removeAttribute("if")

When `_solve_if_element` replaces the `if` child with `m` promoted nodes,
the cursor has already advanced past the slot, so: with `m = 0` the next
sibling slides into the slot and is skipped (it stays, unprocessed); with
`m ≥ 1` the first promoted node occupies the slot unprocessed, and promoted
nodes after the first are re-visited by this same loop.  Removal through a
false `if` attribute likewise makes the loop skip the following sibling.
`fcGo fuel flags done todo` is the loop with `done` the part of the child
list behind the cursor and `todo` the part still to be visited. -/

def fcGo (flags : List (List Char)) :
    Nat → List XNode → List XNode → Option (List XNode)
  | 0, _, _ => none
  | _ + 1, done, [] => some done
  | f + 1, done, child :: rest =>
    match child with
    | XNode.text _ => fcGo flags f (done ++ [child]) rest
    | XNode.elem t a cs =>
      match fcGo flags f [] cs with
      | none => none
      | some cs2 =>
        if isTagCI (XNode.elem t a cs2) "if" then
          match solveIfMoved flags a cs2 with
          | [] =>
            match rest with
            | [] => fcGo flags f done []
            | skipped :: rest2 => fcGo flags f (done ++ [skipped]) rest2
          | mhd :: mtl => fcGo flags f (done ++ [mhd]) (mtl ++ rest)
        else if ¬ getAttr a "if" = "" then
          if condMet flags (getAttr a "if").toList then
            fcGo flags f (done ++ [XNode.elem t (removeAttr a "if") cs2]) rest
          else
            match rest with
            | [] => fcGo flags f done []
            | skipped :: rest2 => fcGo flags f (done ++ [skipped]) rest2
        else fcGo flags f (done ++ [XNode.elem t a cs2]) rest

/-! ## The whole build (`_build`, lines 99-112)

`_build` runs `_objects_n_icons(self.xml.documentElement)` and then
`_find_conditions(self.xml.documentElement)`.  `search_for_id` starts at the
document node, whose only element child is the document element, so searching
`[docElem]` is exactly Python's `search_for_id(self.xml, id)`. -/

def buildDoc (f1 f2 : Nat) (icons : List (String × String))
    (flags : List (List Char)) (docElem : XNode) : Option XNode :=
  match docElem with
  | XNode.elem t a cs =>
    match opChildren icons f1 [] t a [] cs with
    | Except.error _ => none
    | Except.ok cs1 =>
      match fcGo flags f2 [] cs1 with
      | none => none
      | some cs2 => some (XNode.elem t a cs2)
  | XNode.text _ => none

/-- Does the tree still contain a templating construct: an element tagged
`if`/`else`/`copyobject` (any case) or carrying a non-empty `if` attribute?
Fueled for kernel computability (`fuel 0` answers `false`). -/
def hasLeftoverN : Nat → XNode → Bool
  | 0, _ => false
  | _ + 1, XNode.text _ => false
  | f + 1, XNode.elem t a cs =>
    isTagCI (XNode.elem t a cs) "if" || isTagCI (XNode.elem t a cs) "else"
      || isTagCI (XNode.elem t a cs) "copyobject"
      || ¬ getAttr a "if" = ""
      || cs.any (fun n => hasLeftoverN f n)

/-! ## Claims C5, C6, C8, C10: the conditional-expansion pass -/

/-- Claim C5.  The claim says a true `if` splices *all* its remaining
(non-`else`) children into its place, and a false `if` splices *all*
children of each `else` child; so the surviving branch appears whole and in
order.  Because the splice skips an element child that immediately follows a
moved one (see `mergeSelect`), `<if condition="x"><a/><b/></if>` with flag
`x` enabled yields only `<a/>` (first conjunct: `<b/>` is destroyed), and
`<if condition="x"><else><y/><z/></else></if>` with `x` disabled yields only
`<y/>` (second conjunct: `<z/>` is destroyed). -/
theorem uib_c5_if_adjacent_children_eval :
    fcGo [['x']] 9 []
        [XNode.elem "if" [("condition", "x")]
          [XNode.elem "a" [] [], XNode.elem "b" [] []]]
      = some [XNode.elem "a" [] []] ∧
    fcGo [] 9 []
        [XNode.elem "if" [("condition", "x")]
          [XNode.elem "else" []
            [XNode.elem "y" [] [], XNode.elem "z" [] []]]]
      = some [XNode.elem "y" [] []] :=
  ⟨rfl, rfl⟩

/-- Claim C6.  The claim says a completed build never leaves an
`if`/`else`/`copyobject` element or a non-empty `if` attribute in the tree,
*including for inputs with consecutive sibling `if` elements*.  With two
consecutive `<if condition="x"/>` siblings and `x` disabled, resolving the
first `if` removes it from the live child list; the second `if` slides under
the loop cursor of `_find_conditions` and is never visited, so it survives
into the output tree. -/
theorem uib_c6_leftover_if_eval :
    buildDoc 10 10 [] []
        (XNode.elem "interface" []
          [XNode.elem "if" [("condition", "x")] [],
           XNode.elem "if" [("condition", "x")] []])
      = some (XNode.elem "interface" [] [XNode.elem "if" [("condition", "x")] []]) ∧
    hasLeftoverN 3
        (XNode.elem "interface" [] [XNode.elem "if" [("condition", "x")] []])
      = true :=
  ⟨rfl, rfl⟩

/-- Claim C8.  The claim says flag membership is case-insensitive.  It is
not: `enable_condition` stores the name verbatim and the membership test is
exact string equality; only the `<if>` element's `condition` *text* is
lower-cased.  First conjunct: flag enabled as `"A"`, condition text `"A"`
from an `if` element (lower-cased and stripped by `_solve_if_element`)
evaluates to `false`.  Second conjunct: flag enabled as `"a"`, attribute
text `"A"` (the `if`-attribute path does not lower-case) evaluates to
`false`.  Third conjunct: the whole pass on `<if condition="A"><x/></if>`
with flag `"A"` enabled drops the then-branch entirely. -/
theorem uib_c8_case_sensitivity_eval :
    condMet [['A']] (pyStrip (pyLower ['A'])) = false ∧
      condMet [['a']] ['A'] = false ∧
      fcGo [['A']] 9 []
          [XNode.elem "if" [("condition", "A")] [XNode.elem "x" [] []]]
        = some [] :=
  ⟨by decide, by decide, rfl⟩

/-- Claim C10.  An element whose `if` attribute is present but empty is not
treated as conditional: `_find_conditions` tests `getAttribute("if") != ""`,
so the element is kept, the empty attribute is not removed, and (provided
its subtree is already fully resolved, `hfix`) the subtree is returned
untouched — for every flag set. -/
theorem uib_c10_empty_if_attr_kept (f : Nat) (flags : List (List Char))
    (t : String) (a : List (String × String)) (cs : List XNode)
    (ht : isTagCI (XNode.elem t a cs) "if" = false)
    (ha : getAttr a "if" = "")
    (hfix : fcGo flags f [] cs = some cs) :
    fcGo flags (f + 1) [] [XNode.elem t a cs] = some [XNode.elem t a cs] := by
  cases f with
  | zero => simp [fcGo] at hfix
  | succ f' => simp [fcGo, hfix, ht, ha]

/-- Witness for Claim C10: `<GtkButton if=""/>` survives with its empty
`if` attribute for the empty flag set. -/
theorem uib_c10_witness :
    fcGo [] 2 [] [XNode.elem "GtkButton" [("if", "")] []]
      = some [XNode.elem "GtkButton" [("if", "")] []] :=
  uib_c10_empty_if_attr_kept 1 [] "GtkButton" [("if", "")] []
    (by decide) rfl rfl

/-! ## Claim C7: dangling `copyobject` references -/

/-- Claim C7.  A `copyobject` that references an id carried by no other
element cannot make `search_for_id` return `None`: the search runs over the
whole live document and the `copyobject` element itself carries that very
`id` attribute, so the lookup finds (at worst) the `copyobject` tag itself.
The feared `obj.cloneNode` crash on `None` is therefore unreachable; the tag
is replaced by a clone of itself (left unexpanded, no abort), and the rest
of the document is still processed: here the following sibling
`<property name="pixbuf">` still gets its icon path remapped.  Stated for
every non-empty id `i` that no other element carries. -/
theorem uib_c7_dangling_copyobject (i : String) (h : ¬ i = "") :
    opChildren [("old/", "new/")] 9 [] "interface" [] []
        [XNode.elem "copyobject" [("id", i)] [],
         XNode.elem "property" [("name", "pixbuf")] [XNode.text "old/icon.png"]]
      = Except.ok [XNode.elem "copyobject" [("id", i)] [],
          XNode.elem "property" [("name", "pixbuf")] [XNode.text "new/icon.png"]] := by
  have e1 : (i = "") = False := eq_false h
  have e2 : ("" = i) = False := eq_false (fun he => h he.symm)
  have e3 : (i = i) = True := eq_true rfl
  have ga : getAttr [("id", i)] "id" = i := rfl
  have gb : getAttr ([] : List (String × String)) "id" = "" := rfl
  have g1 : pyLower "copyobject".toList = "copyobject".toList := by decide
  have g2 : ¬ pyLower "property".toList = "copyobject".toList := by decide
  have gic : iconCheck [("old/", "new/")]
      (XNode.elem "property" [("name", "pixbuf")] [XNode.text "old/icon.png"])
      = XNode.elem "property" [("name", "pixbuf")] [XNode.text "new/icon.png"] := rfl
  simp only [opChildren, searchN, plug, tagOf, attrsOf, childrenOf,
    ga, gb, g1, g2, gic, e1, e2, e3, if_true, if_false, ite_true, ite_false,
    List.nil_append, List.append_nil, List.cons_append, eq_self_iff_true]

/-- Witness for Claim C7 at `i = "nope"`. -/
theorem uib_c7_witness :
    opChildren [("old/", "new/")] 9 [] "interface" [] []
        [XNode.elem "copyobject" [("id", "nope")] [],
         XNode.elem "property" [("name", "pixbuf")] [XNode.text "old/icon.png"]]
      = Except.ok [XNode.elem "copyobject" [("id", "nope")] [],
          XNode.elem "property" [("name", "pixbuf")] [XNode.text "new/icon.png"]] :=
  uib_c7_dangling_copyobject "nope" (by decide)

/-! ## Claim C9: termination of the object-copy pass

The divergent scenario: `<object id="src"><copyobject id="src"/></object>`
as document element.  `search_for_id` (pre-order from the document root)
finds the `object` element — an *ancestor* of the `copyobject` tag.  The
clone of that ancestor contains a fresh `copyobject id="src"`, the clone is
inserted into the live tree, and the pass recurses into it; the next lookup
again finds the (now bigger) outermost `object`, and so on forever, each
round cloning a strictly larger subtree.

`nestChildren j` / `nestObj j` describe the focus states this run moves
through: after `d` rounds the ancestor zipper is `d` copies of `srcCrumb`
and the pass is walking down a `j`-fold nested clone. -/

def copyObjSrc : XNode := XNode.elem "copyobject" [("id", "src")] []

def srcAttrs : List (String × String) := [("id", "src")]

def srcCrumb : Crumb := Crumb.mk "object" srcAttrs [] []

def nestChildren : Nat → List XNode
  | 0 => [copyObjSrc]
  | k + 1 => [XNode.elem "object" srcAttrs (nestChildren k)]

def nestObj (k : Nat) : XNode := XNode.elem "object" srcAttrs (nestChildren k)

theorem plug_rep (d k : Nat) :
    plug (List.replicate d srcCrumb) (nestObj k) = nestObj (d + k) := by
  induction d generalizing k with
  | zero => show nestObj k = nestObj (0 + k); rw [Nat.zero_add]
  | succ d ih =>
    show plug (List.replicate d srcCrumb)
        (XNode.elem srcCrumb.tag srcCrumb.attrs
          (srcCrumb.left ++ nestObj k :: srcCrumb.right)) = _
    have hstep : XNode.elem srcCrumb.tag srcCrumb.attrs
        (srcCrumb.left ++ nestObj k :: srcCrumb.right) = nestObj (k + 1) := rfl
    rw [hstep, ih (k + 1)]
    have : d + (k + 1) = d + 1 + k := by omega
    rw [this]

theorem searchN_nest (f d : Nat) :
    searchN "src" (f + 1) [nestObj d] = some (some (nestObj d)) := by
  show searchN "src" (f + 1) [XNode.elem "object" srcAttrs (nestChildren d)] = _
  have hid : getAttr srcAttrs "id" = "src" := rfl
  simp only [searchN, hid, if_pos rfl, ite_true]
  rfl

/-- The run of `_objects_n_icons` on the self-referencing document, at any
ancestor depth `d` and clone depth `j`, exhausts every fuel budget: the
modelled recursion never returns. -/
theorem opDiverges_aux :
    ∀ (f : Nat), ∀ (d j : Nat),
      opChildren [] f (List.replicate d srcCrumb) "object" srcAttrs []
          (nestChildren j)
        = Except.error CopyErr.noFuel := by
  intro f
  induction f with
  | zero => intro d j; rfl
  | succ f ih =>
    intro d j
    cases j with
    | zero =>
      show opChildren [] (f + 1) (List.replicate d srcCrumb) "object" srcAttrs []
          [copyObjSrc] = _
      cases f with
      | zero => rfl
      | succ f' =>
        have hplug : plug (List.replicate d srcCrumb)
            (XNode.elem "object" srcAttrs ([] ++ copyObjSrc :: []))
            = nestObj d := by
          have h0 : XNode.elem "object" srcAttrs ([] ++ copyObjSrc :: [])
              = nestObj 0 := rfl
          rw [h0, plug_rep d 0, Nat.add_zero]
        show opChildren [] (f' + 1 + 1) (List.replicate d srcCrumb) "object" srcAttrs []
            [XNode.elem "copyobject" [("id", "src")] []] = _
        simp only [opChildren]
        rw [if_pos (show pyLower "copyobject".toList = "copyobject".toList by decide)]
        rw [if_neg (show ¬ getAttr [("id", "src")] "id" = "" by decide)]
        rw [show plug (List.replicate d srcCrumb)
            (XNode.elem "object" srcAttrs
              ([] ++ XNode.elem "copyobject" [("id", "src")] [] :: []))
            = nestObj d from hplug]
        rw [show getAttr [("id", "src")] "id" = "src" from rfl]
        rw [searchN_nest f' d]
        have hrec := ih (d + 1) d
        rw [show List.replicate (d + 1) srcCrumb
            = Crumb.mk "object" srcAttrs [] [] :: List.replicate d srcCrumb from rfl] at hrec
        show (match opChildren [] (f' + 1)
              (Crumb.mk "object" srcAttrs [] [] :: List.replicate d srcCrumb)
              "object" srcAttrs [] (nestChildren d) with
          | Except.error e => Except.error e
          | Except.ok cs2 => Except.ok ([] ++ [XNode.elem "object" srcAttrs cs2]))
          = Except.error CopyErr.noFuel
        rw [hrec]
    | succ j' =>
      show opChildren [] (f + 1) (List.replicate d srcCrumb) "object" srcAttrs []
          [XNode.elem "object" srcAttrs (nestChildren j')] = _
      have hrec := ih (d + 1) j'
      rw [show List.replicate (d + 1) srcCrumb
          = Crumb.mk "object" srcAttrs [] [] :: List.replicate d srcCrumb from rfl] at hrec
      simp only [opChildren]
      rw [if_neg (show ¬ pyLower "object".toList = "copyobject".toList by decide)]
      rw [hrec]

/-- The object-copy pass on the document
`<object id="src"><copyobject id="src"/></object>` (a `copyobject`
referencing its own ancestor) returns fuel-exhaustion for *every* fuel
budget: the Python recursion never terminates. -/
def copyobjectSelfRefDiverges : Prop :=
  ∀ fuel : Nat,
    opChildren [] fuel [] "object" srcAttrs [] [copyObjSrc]
      = Except.error CopyErr.noFuel

/-- Claim C9, counterexample: the build does not terminate on a
`copyobject` whose referenced id names one of its own ancestors. -/
theorem uib_c9_self_reference_diverges : copyobjectSelfRefDiverges :=
  fun fuel => opDiverges_aux fuel 0 0

/-- No element in the forest is tagged `copyobject` (case-insensitive);
the fuel certificate doubles as a size bound: `noCopyN g todo = true` forces
`g` to exceed the walk cost of `todo`. -/
def noCopyN : Nat → List XNode → Bool
  | 0, _ => false
  | _ + 1, [] => true
  | f + 1, XNode.text _ :: rest => noCopyN f rest
  | f + 1, XNode.elem t _ cs :: rest =>
    !decide (pyLower t.toList = "copyobject".toList)
      && noCopyN f cs && noCopyN f rest

def isOkE : Except CopyErr (List XNode) → Bool
  | Except.ok _ => true
  | Except.error _ => false

/-- Claim C9, amended, positive part.  On a child forest with no
`copyobject` element anywhere, `_objects_n_icons` terminates and its cost is
bounded by the document size: any fuel `f` at least the size certificate `g`
(one unit per tree node, i.e. linear in the document) makes the pass return
successfully — for every icon table, ancestor context and focus element. -/
theorem uib_c9_terminates_without_copyobject :
    ∀ (f g : Nat) (icons : List (String × String)) (z : List Crumb)
      (tg : String) (ats : List (String × String)) (done todo : List XNode),
      noCopyN g todo = true → g ≤ f →
      isOkE (opChildren icons f z tg ats done todo) = true := by
  intro f
  induction f with
  | zero =>
    intro g icons z tg ats done todo h1 h2
    have hg : g = 0 := Nat.le_zero.mp h2
    rw [hg] at h1
    simp [noCopyN] at h1
  | succ f ih =>
    intro g icons z tg ats done todo h1 h2
    match g, todo with
    | 0, todo => simp [noCopyN] at h1
    | g' + 1, [] => rfl
    | g' + 1, XNode.text s :: rest =>
      have h1' : noCopyN g' rest = true := h1
      have h2' : g' ≤ f := Nat.succ_le_succ_iff.mp h2
      show isOkE (opChildren icons f z tg ats (done ++ [XNode.text s]) rest) = true
      exact ih g' icons z tg ats (done ++ [XNode.text s]) rest h1' h2'
    | g' + 1, XNode.elem t a cs :: rest =>
      have h2' : g' ≤ f := Nat.succ_le_succ_iff.mp h2
      have h1' : (!decide (pyLower t.toList = "copyobject".toList)
          && noCopyN g' cs && noCopyN g' rest) = true := h1
      rw [Bool.and_eq_true, Bool.and_eq_true] at h1'
      obtain ⟨⟨hguard, hcs⟩, hrest⟩ := h1'
      have hg : ¬ pyLower t.toList = "copyobject".toList := by
        simpa using hguard
      have hinner := ih g' icons (Crumb.mk tg ats done rest :: z) t a [] cs hcs h2'
      show isOkE (opChildren icons (f + 1) z tg ats done (XNode.elem t a cs :: rest)) = true
      simp only [opChildren]
      rw [if_neg hg]
      cases hi : opChildren icons f (Crumb.mk tg ats done rest :: z) t a [] cs with
      | error e => rw [hi] at hinner; simp [isOkE] at hinner
      | ok cs2 =>
        exact ih g' icons z tg ats
          (done ++ [iconCheck icons (XNode.elem t a cs2)]) rest hrest h2'

/-- Witness for the amended Claim C9 on a small copyobject-free document. -/
theorem uib_c9_terminates_witness :
    isOkE (opChildren [] 5 [] "interface" [] []
        [XNode.elem "object" [] [XNode.text "hello"],
         XNode.text "\n"]) = true :=
  uib_c9_terminates_without_copyobject 5 5 [] [] "interface" [] []
    [XNode.elem "object" [] [XNode.text "hello"], XNode.text "\n"]
    (by decide) (by decide)
